import Mathlib

/-!
Shallow embedding of the dutchess2 trading-signal engine.

Numbers are modelled as exact rationals (`ℚ`); the JavaScript source uses
IEEE doubles, but all claim-relevant arithmetic (sums, means, weighted
averages, comparisons) is exact over the inputs considered here.
`Array.prototype.slice(-n)` is modelled by `sliceLast`, JavaScript truthiness
of a possibly-null number by `jsTruthy`, and missing (`undefined`/`null`)
values by `Option ℚ`.
-/

/-- Model of JavaScript `arr.slice(-n)` for a natural `n`:
`slice(-0)` is `slice(0)`, the whole array; otherwise the last
`min n (length)` elements. -/
def sliceLast {α : Type} (l : List α) (n : ℕ) : List α :=
  if n = 0 then l else l.drop (l.length - n)

/-- JavaScript truthiness of a nullable number: `null`/`undefined` and `0`
are falsy, every other (non-NaN) number is truthy. -/
def jsTruthy (x : Option ℚ) : Bool :=
  match x with
  | none => false
  | some v => decide (v ≠ 0)

namespace TechnicalIndicators

/-- Embeds `TechnicalIndicators.sma` (src/src/index_backup.js lines 626-630):
null when fewer than `period` prices, else the sum of the last `period`
prices divided by `period`. -/
def sma (prices : List ℚ) (period : ℕ) : Option ℚ :=
  if prices.length < period then none
  else some ((sliceLast prices period).sum / period)

/-- The per-index price changes `prices[i] - prices[i-1]` built by the loop in
`TechnicalIndicators.rsi` (index_backup.js lines 653-656). -/
def priceChanges (prices : List ℚ) : List ℚ :=
  List.zipWith (fun next prev => next - prev) (prices.drop 1) prices

/-- The gains list of `TechnicalIndicators.rsi` (line 658). -/
def gainsOf (prices : List ℚ) : List ℚ :=
  (priceChanges prices).map (fun change => if 0 < change then change else 0)

/-- The losses list of `TechnicalIndicators.rsi` (line 659). -/
def lossesOf (prices : List ℚ) : List ℚ :=
  (priceChanges prices).map (fun change => if change < 0 then |change| else 0)

/-- The `avgGain` of `TechnicalIndicators.rsi` (line 661). -/
def avgGainOf (prices : List ℚ) (period : ℕ) : ℚ :=
  (sliceLast (gainsOf prices) period).sum / period

/-- The `avgLoss` of `TechnicalIndicators.rsi` (line 662). -/
def avgLossOf (prices : List ℚ) (period : ℕ) : ℚ :=
  (sliceLast (lossesOf prices) period).sum / period

/-- Embeds `TechnicalIndicators.rsi` (index_backup.js lines 650-668). -/
def rsi (prices : List ℚ) (period : ℕ) : Option ℚ :=
  if prices.length < period + 1 then none
  else if avgLossOf prices period = 0 then some 100
  else some (100 - 100 / (1 + avgGainOf prices period / avgLossOf prices period))

end TechnicalIndicators

namespace SMAStrategy

/-- Embeds `SimpleMovingAverageStrategy.calculateSMA`
(src/src/strategies/rsiStrategy.js lines 442-455) acting on one product's
price history: sets the SMA to the mean of the last `period` prices when
at least `period` prices are present, else `null`. -/
def calculateSMA (history : List ℚ) (period : ℕ) : Option ℚ :=
  if period ≤ history.length then some ((sliceLast history period).sum / period)
  else none

end SMAStrategy

/-- Spec-side definition of the trailing window of `n` values, written
independently of the source's `slice(-n)`: reverse, take `n`, reverse. -/
def trailingWindow (l : List ℚ) (n : ℕ) : List ℚ :=
  (l.reverse.take n).reverse

/-- Trading mode of a strategy instance (`this.mode`). -/
inductive Mode
  | stopped
  | simulation
  | active
deriving DecidableEq

/-- Order side. -/
inductive Side
  | buy
  | sell
deriving DecidableEq

/-- Per-product position flag of a strategy (`'none' | 'long' | 'short'`). -/
inductive Pos3
  | none
  | long
  | short
deriving DecidableEq

/-- A call made by a strategy into the trading engine's order-execution
entry points `executeBuyOrder`/`executeSellOrder`.  `isSimulated` is the
engine parameter of that name; the strategies pass only
`(productId, this.tradeAmount)`, so it takes its default value `false`. -/
structure SinkCall where
  side : Side
  productId : String
  amount : ℚ
  isSimulated : Bool
deriving DecidableEq

/-- A record pushed onto a strategy's own `this.trades` ledger by
`executeTrade` (nondeterministic `id`/`timestamp`/`orderId` fields omitted). -/
structure StratTrade where
  side : Side
  productId : String
  price : ℚ
  amount : ℚ
  status : String
deriving DecidableEq

/-- Outcome of one engine `executeBuyOrder`/`executeSellOrder` round trip as
observed by a strategy: a `{success:true}` result, a `{success:false}`
result (risk rejection / insufficient balance / unknown error), or a thrown
rejection (caught by the strategy's try/catch). -/
inductive EngineOutcome
  | success
  | failureResult
  | thrown
deriving DecidableEq

namespace RSIStrategy

/-- Parameters of `RSIStrategy` (rsiStrategy.js lines 8-12). -/
structure RsiParams where
  period : ℕ
  oversoldThreshold : ℚ
  overboughtThreshold : ℚ
  tradeAmount : ℚ
  mode : Mode

/-- Mutable state of `RSIStrategy` (rsiStrategy.js lines 14-19). -/
structure RsiState where
  priceHistory : List ℚ
  gains : List ℚ
  losses : List ℚ
  rsi : Option ℚ
  position : Pos3
  trades : List StratTrade
deriving DecidableEq

/-- Initial state from the `RSIStrategy` constructor. -/
def initialRsiState : RsiState :=
  { priceHistory := [], gains := [], losses := [], rsi := Option.none,
    position := Pos3.none, trades := [] }

/-- Embeds `RSIStrategy.calculateRSI` (rsiStrategy.js lines 67-79): with
fewer than `period` gains, `this.rsi` is left unchanged; otherwise it is set
from the average gain and average loss (each a sum divided by `period`). -/
def calculateRSI (period : ℕ) (s : RsiState) : RsiState :=
  if s.gains.length < period then s
  else
    let avgGain := s.gains.sum / period
    let avgLoss := s.losses.sum / period
    if avgLoss = 0 then { s with rsi := some 100 }
    else { s with rsi := some (100 - 100 / (1 + avgGain / avgLoss)) }

end RSIStrategy

namespace SMAStrategy

/-- Embeds `SimpleMovingAverageStrategy.shouldGenerateCrossoverSignal`
(rsiStrategy.js lines 457-491): with a truthy previous signal price, accept
exactly when `|price - lastSignalPrice| * tradeAmount / (lastSignalPrice *
tradeAmount)` reaches `minMovementPercent`; otherwise (no previous signal
price) always accept. -/
def shouldGenerateCrossoverSignal (minMovementPercent tradeAmount : ℚ)
    (lastSignalPrice : Option ℚ) (currentPrice : ℚ) : Bool :=
  if jsTruthy lastSignalPrice then
    let lsp := lastSignalPrice.getD 0
    let priceMovement := |currentPrice - lsp|
    let tradeValueMovement := priceMovement * tradeAmount
    let baseTradeValue := lsp * tradeAmount
    let movementPercent := tradeValueMovement / baseTradeValue
    decide (minMovementPercent ≤ movementPercent)
  else true

end SMAStrategy

namespace MACDStrategy

/-- Embeds `MACDStrategy.shouldGenerateCrossoverSignal` (macdStrategy.js
lines 442-476), textually identical to the SMA strategy's version. -/
def shouldGenerateCrossoverSignal (minMovementPercent tradeAmount : ℚ)
    (lastSignalPrice : Option ℚ) (currentPrice : ℚ) : Bool :=
  if jsTruthy lastSignalPrice then
    let lsp := lastSignalPrice.getD 0
    let priceMovement := |currentPrice - lsp|
    let tradeValueMovement := priceMovement * tradeAmount
    let baseTradeValue := lsp * tradeAmount
    let movementPercent := tradeValueMovement / baseTradeValue
    decide (minMovementPercent ≤ movementPercent)
  else true

end MACDStrategy

namespace TradingEngine

/-- A position tracked by the engine
(`this.positions: productId -> { amount, avgPrice, totalCost }`). -/
structure Position where
  amount : ℚ
  totalCost : ℚ
  avgPrice : ℚ
deriving DecidableEq

/-- A trade record appended to `this.performanceData.trades` by
`recordTrade` (tradingEngine.js lines 311-323); the nondeterministic
`id`/`timestamp`/`cryptoSymbol` fields are omitted. -/
structure EngineTrade where
  productId : String
  side : Side
  amount : ℚ
  price : ℚ
  totalValue : ℚ
  fees : ℚ
  isSimulated : Bool
  realizedPnL : ℚ
deriving DecidableEq

/-- The engine's `this.performanceData` (tradingEngine.js lines 17-32). -/
structure PerformanceData where
  sessionStartTime : String
  totalTrades : ℕ
  buyTrades : ℕ
  sellTrades : ℕ
  winningTrades : ℕ
  losingTrades : ℕ
  grossProfit : ℚ
  grossLoss : ℚ
  totalFees : ℚ
  realizedPnL : ℚ
  unrealizedPnL : ℚ
  trades : List EngineTrade
  maxDrawdown : ℚ
  peakEquity : ℚ
deriving DecidableEq

/-- The performance-tracking state of the engine: `this.performanceData`
plus the `this.positions` map (modelled as an association list with
JS-`Map` semantics: at most one entry per key). -/
structure EngineState where
  performanceData : PerformanceData
  positions : List (String × Position)
deriving DecidableEq

/-- Lookup `this.positions.get(productId)` as an optional value. -/
def posFind (positions : List (String × Position)) (productId : String) :
    Option Position :=
  match positions with
  | [] => Option.none
  | (k, v) :: rest => if k = productId then some v else posFind rest productId

/-- Lookup with default, `positions.get(productId)` or the zero position. -/
def posGet (positions : List (String × Position)) (productId : String) :
    Position :=
  (posFind positions productId).getD ⟨0, 0, 0⟩

/-- Insertion `this.positions.set(productId, p)`: replace the existing entry in place,
else append. -/
def posSet (positions : List (String × Position)) (productId : String)
    (p : Position) : List (String × Position) :=
  match positions with
  | [] => [(productId, p)]
  | (k, v) :: rest =>
    if k = productId then (productId, p) :: rest
    else (k, v) :: posSet rest productId p

/-- Deletion `this.positions.delete(productId)`.  JS `Map` keys are unique, so
removing every entry with the key is extensionally the `Map.delete`. -/
def posDelete (positions : List (String × Position)) (productId : String) :
    List (String × Position) :=
  positions.filter (fun kv => decide (kv.1 ≠ productId))

/-- The zeroed `performanceData` object built by the constructor and by
`resetPerformanceData` (tradingEngine.js lines 17-32 and 492-507);
`sessionStartTime` is the wall-clock string passed in. -/
def initialPerformanceData (sessionStartTime : String) : PerformanceData :=
  { sessionStartTime := sessionStartTime
    totalTrades := 0
    buyTrades := 0
    sellTrades := 0
    winningTrades := 0
    losingTrades := 0
    grossProfit := 0
    grossLoss := 0
    totalFees := 0
    realizedPnL := 0
    unrealizedPnL := 0
    trades := []
    maxDrawdown := 0
    peakEquity := 0 }

/-- A freshly constructed engine state. -/
def initialEngineState (sessionStartTime : String) : EngineState :=
  { performanceData := initialPerformanceData sessionStartTime, positions := [] }

/-- Embeds `TradingEngine.resetPerformanceData` (tradingEngine.js lines
490-516): replaces `performanceData` with the zeroed object (with a fresh
`sessionStartTime`) and clears the positions map. -/
def resetPerformanceData (sessionStartTime : String) (_s : EngineState) :
    EngineState :=
  { performanceData := initialPerformanceData sessionStartTime, positions := [] }

/-- Embeds `TradingEngine.recordBuyTrade` (tradingEngine.js lines 379-392). -/
def recordBuyTrade (positions : List (String × Position)) (productId : String)
    (amount _price totalValue : ℚ) : List (String × Position) :=
  let position := posGet positions productId
  let newTotalCost := position.totalCost + totalValue
  let newAmount := position.amount + amount
  let newAvgPrice := if 0 < newAmount then newTotalCost / newAmount else 0
  posSet positions productId
    { amount := newAmount, totalCost := newTotalCost, avgPrice := newAvgPrice }

/-- Embeds `TradingEngine.recordSellTrade` (tradingEngine.js lines 394-422):
returns the updated positions map and the realized P&L of the sell. -/
def recordSellTrade (positions : List (String × Position)) (productId : String)
    (amount price _totalValue : ℚ) : List (String × Position) × ℚ :=
  let position := posGet positions productId
  if position.amount ≤ 0 then (positions, 0)
  else
    let soldPortion := min amount position.amount
    let costBasis := soldPortion * position.avgPrice
    let realizedPnL := soldPortion * price - costBasis
    let remainingAmount := position.amount - soldPortion
    let remainingCost := position.totalCost - costBasis
    if 0 < remainingAmount then
      (posSet positions productId
        { amount := remainingAmount, totalCost := remainingCost,
          avgPrice := position.avgPrice }, realizedPnL)
    else
      (posDelete positions productId, realizedPnL)

/-- Push `this.performanceData.trades.push(trade)` followed by the cap at the
last 1000 trades (tradingEngine.js lines 355-360). -/
def pushCapped (trades : List EngineTrade) (trade : EngineTrade) :
    List EngineTrade :=
  let trades := trades ++ [trade]
  if 1000 < trades.length then sliceLast trades 1000 else trades

/-- Embeds `TradingEngine.calculateUnrealizedPnL` (tradingEngine.js lines
437-452) without its write-back of `this.performanceData.unrealizedPnL`
(performed by the callers in this model).  `priceOf` models
`getCurrentPrice` (`coinbaseService.getLastPrice(productId) || 0`). -/
def calculateUnrealizedPnL (priceOf : String → ℚ)
    (positions : List (String × Position)) : ℚ :=
  (positions.map (fun kv =>
    let currentPrice := priceOf kv.1
    if 0 < currentPrice then kv.2.amount * currentPrice - kv.2.totalCost
    else 0)).sum

/-- Embeds `TradingEngine.updateDrawdownMetrics` (tradingEngine.js lines
424-435), including the `unrealizedPnL` write-back done by its call to
`calculateUnrealizedPnL`. -/
def updateDrawdownMetrics (priceOf : String → ℚ) (s : EngineState) :
    EngineState :=
  let u := calculateUnrealizedPnL priceOf s.positions
  let pd0 := { s.performanceData with unrealizedPnL := u }
  let currentEquity := pd0.realizedPnL + u
  let pd1 := if pd0.peakEquity < currentEquity then
      { pd0 with peakEquity := currentEquity }
    else pd0
  let drawdown := pd1.peakEquity - currentEquity
  let pd2 := if pd1.maxDrawdown < drawdown then
      { pd1 with maxDrawdown := drawdown }
    else pd1
  { s with performanceData := pd2 }

/-- Embeds `TradingEngine.recordTrade` (tradingEngine.js lines 305-377):
counters, position update / realized-P&L and win/loss classification,
trade append with the 1000-entry cap, and drawdown update. -/
def recordTrade (priceOf : String → ℚ) (s : EngineState) (productId : String)
    (side : Side) (amount price fees : ℚ) (isSimulated : Bool) : EngineState :=
  let totalValue := amount * price
  let pd0 := s.performanceData
  let pd1 := { pd0 with
    totalTrades := pd0.totalTrades + 1
    buyTrades := if side = Side.buy then pd0.buyTrades + 1 else pd0.buyTrades
    sellTrades := if side = Side.buy then pd0.sellTrades else pd0.sellTrades + 1
    totalFees := pd0.totalFees + fees }
  match side with
  | Side.buy =>
    let positions := recordBuyTrade s.positions productId amount price totalValue
    let trade : EngineTrade :=
      { productId := productId, side := side, amount := amount, price := price,
        totalValue := totalValue, fees := fees, isSimulated := isSimulated,
        realizedPnL := 0 }
    updateDrawdownMetrics priceOf
      { performanceData := { pd1 with trades := pushCapped pd1.trades trade }
        positions := positions }
  | Side.sell =>
    let res := recordSellTrade s.positions productId amount price totalValue
    let realizedPnL := res.2
    let pd2 := if 0 < realizedPnL then
        { pd1 with winningTrades := pd1.winningTrades + 1,
                   grossProfit := pd1.grossProfit + realizedPnL }
      else
        { pd1 with losingTrades := pd1.losingTrades + 1,
                   grossLoss := pd1.grossLoss + |realizedPnL| }
    let pd3 := { pd2 with realizedPnL := pd2.realizedPnL + realizedPnL }
    let trade : EngineTrade :=
      { productId := productId, side := side, amount := amount, price := price,
        totalValue := totalValue, fees := fees, isSimulated := isSimulated,
        realizedPnL := realizedPnL }
    updateDrawdownMetrics priceOf
      { performanceData := { pd3 with trades := pushCapped pd3.trades trade }
        positions := res.1 }

/-- Where the engine's `executeBuyOrder`/`executeSellOrder` route an order
(tradingEngine.js lines 136-169 and 195-228). -/
inductive OrderRoute
  | simulatedFill
  | exchangeOrder
deriving DecidableEq

/-- The `isSimulated` branch of `TradingEngine.executeBuyOrder` /
`executeSellOrder`: with `isSimulated = true` the order is filled by a local
simulation; with `false` (the parameter's default, and what every strategy
passes) it is placed on the real exchange via
`coinbaseService.placeBuyOrder`/`placeSellOrder`. -/
def executeOrderRoute (isSimulated : Bool) : OrderRoute :=
  if isSimulated then OrderRoute.simulatedFill else OrderRoute.exchangeOrder

end TradingEngine

namespace SMAStrategy

/-- Parameters of `SimpleMovingAverageStrategy` (rsiStrategy.js lines
380-391). -/
structure SmaParams where
  period : ℕ
  minMovementPercent : ℚ
  tradeAmount : ℚ
  mode : Mode

/-- The per-product slice of `SimpleMovingAverageStrategy`'s state for one
fixed product: `priceHistories/smas/lastPrices/lastSmas/positions/
lastSignalPrice/entryPrices/initialBuyGenerated` at that product's key,
plus the shared `this.trades` ledger (rsiStrategy.js lines 381-400). -/
structure SmaState where
  priceHistory : List ℚ
  sma : Option ℚ
  lastPrice : Option ℚ
  lastSma : Option ℚ
  position : Pos3
  lastSignalPrice : Option ℚ
  entryPrice : Option ℚ
  initialBuyGenerated : Bool
  trades : List StratTrade
deriving DecidableEq

/-- The state of a product right after its arrays are initialized on first
tick (rsiStrategy.js lines 423-430). -/
def initialSmaState : SmaState :=
  { priceHistory := [], sma := Option.none, lastPrice := Option.none,
    lastSma := Option.none, position := Pos3.none,
    lastSignalPrice := Option.none, entryPrice := Option.none,
    initialBuyGenerated := false, trades := [] }

/-- The live portfolio snapshot (`tradingEngine.getPortfolio()`) as used by
`simulateTrade`: USD and USDC balances plus the balance of the traded
product's crypto symbol. -/
structure Portfolio where
  usd : ℚ
  usdc : ℚ
  crypto : ℚ
deriving DecidableEq

/-- Embeds `SimpleMovingAverageStrategy.simulateTrade` (rsiStrategy.js lines
897-966): a pure affordability check against the live portfolio.  It never
mutates the portfolio, never pushes onto `this.trades`, and never calls the
engine's order-execution sink; only the result's `success` flag is relevant
to the state. -/
def simulateTrade (pf : Portfolio) (tradeAmount : ℚ) (side : Side)
    (price : ℚ) : Bool :=
  match side with
  | Side.buy =>
    let usdToSpend := tradeAmount * price
    let usdAvailable := pf.usd + pf.usdc
    decide (usdToSpend ≤ usdAvailable)
  | Side.sell =>
    let cryptoAvailable := pf.crypto
    decide (tradeAmount ≤ cryptoAvailable)

/-- Embeds `SimpleMovingAverageStrategy.executeTrade` (rsiStrategy.js lines
839-895): in stopped mode returns null without touching the engine;
otherwise makes exactly one `executeBuyOrder`/`executeSellOrder` call
(passing only `(productId, tradeAmount)`, so `isSimulated` stays `false`)
and pushes a strategy trade only when the result is a success.  The engine
reference is modelled as set (`setTradingEngine` ran at strategy start).
Returns (new ledger, sink calls made, success flag). -/
def executeTrade (mode : Mode) (tradeAmount : ℚ) (outcome : EngineOutcome)
    (trades : List StratTrade) (side : Side) (productId : String)
    (price : ℚ) : List StratTrade × List SinkCall × Bool :=
  if mode = Mode.stopped then (trades, [], false)
  else
    let call : SinkCall :=
      { side := side, productId := productId, amount := tradeAmount,
        isSimulated := false }
    match outcome with
    | EngineOutcome.success =>
      let status := if mode = Mode.active then "executed" else "simulated"
      let trade : StratTrade :=
        { side := side, productId := productId, price := price,
          amount := tradeAmount, status := status }
      (trades ++ [trade], [call], true)
    | EngineOutcome.failureResult => (trades, [call], false)
    | EngineOutcome.thrown => (trades, [call], false)

/-- Embeds `SimpleMovingAverageStrategy.generateBuySignal` (rsiStrategy.js
lines 493-543): updates `lastSignalPrice`, `positions` (to long) and
`entryPrices` *before* executing, then simulates (simulation mode) or
executes (active mode) the trade. -/
def generateBuySignal (p : SmaParams) (pf : Portfolio)
    (outcome : EngineOutcome) (productId : String) (s : SmaState)
    (price : ℚ) : SmaState × List SinkCall :=
  let s1 := { s with
    lastSignalPrice := some price
    position := Pos3.long
    entryPrice := some price }
  match p.mode with
  | Mode.simulation =>
    let _ok := simulateTrade pf p.tradeAmount Side.buy price
    (s1, [])
  | Mode.active =>
    let r := executeTrade p.mode p.tradeAmount outcome s1.trades Side.buy
      productId price
    ({ s1 with trades := r.1 }, r.2.1)
  | Mode.stopped => (s1, [])

/-- Embeds `SimpleMovingAverageStrategy.generateSellSignal` (rsiStrategy.js
lines 545-595): updates `lastSignalPrice`, `positions` (to none) and clears
`entryPrices` *before* executing, then simulates or executes the trade. -/
def generateSellSignal (p : SmaParams) (pf : Portfolio)
    (outcome : EngineOutcome) (productId : String) (s : SmaState)
    (price : ℚ) : SmaState × List SinkCall :=
  let s1 := { s with
    lastSignalPrice := some price
    position := Pos3.none
    entryPrice := Option.none }
  match p.mode with
  | Mode.simulation =>
    let _ok := simulateTrade pf p.tradeAmount Side.sell price
    (s1, [])
  | Mode.active =>
    let r := executeTrade p.mode p.tradeAmount outcome s1.trades Side.sell
      productId price
    ({ s1 with trades := r.1 }, r.2.1)
  | Mode.stopped => (s1, [])

/-- Embeds `SimpleMovingAverageStrategy.generateSignals` (rsiStrategy.js
lines 597-685) for one product, sequentially (each awaited call completes
before the next statement).  `position` is captured once at the top as in
the source; `emitCrossoverSignal`'s only state effect is
`lastSignalPrice := price` (line 736); the initial-crossover branch sets
`initialBuyGenerated` after its signal, and the subsequent-crossover `if`
reads the updated flag. -/
def generateSignals (p : SmaParams) (pf : Portfolio)
    (outcome : EngineOutcome) (productId : String) (s : SmaState)
    (currentPrice : ℚ) : SmaState × List SinkCall :=
  match s.sma, s.lastPrice, s.lastSma with
  | some sma, some lastPrice, some lastSma =>
    let position := s.position
    let buyCond := decide (lastPrice ≤ lastSma) && decide (sma < currentPrice)
    let sellCond := decide (lastSma ≤ lastPrice) && decide (currentPrice < sma)
    let stepA :=
      if !s.initialBuyGenerated && buyCond then
        if shouldGenerateCrossoverSignal p.minMovementPercent p.tradeAmount
            s.lastSignalPrice currentPrice then
          let sA := { s with lastSignalPrice := some currentPrice }
          let r :=
            if (p.mode = Mode.simulation ∨ p.mode = Mode.active) ∧
                position ≠ Pos3.long then
              generateBuySignal p pf outcome productId sA currentPrice
            else (sA, ([] : List SinkCall))
          ({ r.1 with initialBuyGenerated := true }, r.2)
        else (s, ([] : List SinkCall))
      else (s, ([] : List SinkCall))
    let s1 := stepA.1
    let calls1 := stepA.2
    if s1.initialBuyGenerated && buyCond then
      if shouldGenerateCrossoverSignal p.minMovementPercent p.tradeAmount
          s1.lastSignalPrice currentPrice then
        let sA := { s1 with lastSignalPrice := some currentPrice }
        let r :=
          if (p.mode = Mode.simulation ∨ p.mode = Mode.active) ∧
              position ≠ Pos3.long then
            generateBuySignal p pf outcome productId sA currentPrice
          else (sA, ([] : List SinkCall))
        (r.1, calls1 ++ r.2)
      else (s1, calls1)
    else if sellCond then
      if shouldGenerateCrossoverSignal p.minMovementPercent p.tradeAmount
          s1.lastSignalPrice currentPrice then
        let sA := { s1 with lastSignalPrice := some currentPrice }
        let r :=
          if (p.mode = Mode.simulation ∨ p.mode = Mode.active) ∧
              position = Pos3.long then
            generateSellSignal p pf outcome productId sA currentPrice
          else (sA, ([] : List SinkCall))
        (r.1, calls1 ++ r.2)
      else (s1, calls1)
    else (s1, calls1)
  | _, _, _ => (s, [])

/-- Embeds `SimpleMovingAverageStrategy.onPriceUpdate` (rsiStrategy.js lines
416-440) for one product: push the price, cap the history at `2 * period`,
recompute the SMA, generate signals, then update `lastPrices`/`lastSmas`. -/
def onPriceUpdate (p : SmaParams) (pf : Portfolio) (outcome : EngineOutcome)
    (productId : String) (s : SmaState) (price : ℚ) :
    SmaState × List SinkCall :=
  let hist0 := s.priceHistory ++ [price]
  let hist := if p.period * 2 < hist0.length then sliceLast hist0 (p.period * 2)
    else hist0
  let s1 := { s with priceHistory := hist, sma := calculateSMA hist p.period }
  let r := generateSignals p pf outcome productId s1 price
  ({ r.1 with lastPrice := some price, lastSma := r.1.sma }, r.2)

end SMAStrategy

namespace RSIStrategy

/-- Embeds `RSIStrategy.executeTrade` (rsiStrategy.js lines 183-237): in
stopped mode returns null without touching the engine; otherwise makes
exactly one `executeBuyOrder`/`executeSellOrder` call (passing only
`(productId, tradeAmount)`, so the engine's `isSimulated` parameter stays
`false`) and pushes a strategy trade, with status 'executed' only in active
mode, only when the result is a success.  Returns (new ledger, sink calls
made, success flag). -/
def executeTrade (mode : Mode) (tradeAmount : ℚ) (outcome : EngineOutcome)
    (trades : List StratTrade) (side : Side) (productId : String)
    (price : ℚ) : List StratTrade × List SinkCall × Bool :=
  if mode = Mode.stopped then (trades, [], false)
  else
    let call : SinkCall :=
      { side := side, productId := productId, amount := tradeAmount,
        isSimulated := false }
    match outcome with
    | EngineOutcome.success =>
      let status := if mode = Mode.active then "executed" else "simulated"
      let trade : StratTrade :=
        { side := side, productId := productId, price := price,
          amount := tradeAmount, status := status }
      (trades ++ [trade], [call], true)
    | EngineOutcome.failureResult => (trades, [call], false)
    | EngineOutcome.thrown => (trades, [call], false)

/-- Embeds `RSIStrategy.generateBuySignal` (rsiStrategy.js lines 119-149):
executes the trade when the mode is simulation or active. -/
def generateBuySignal (p : RsiParams) (outcome : EngineOutcome)
    (s : RsiState) (productId : String) (price : ℚ) :
    RsiState × List SinkCall :=
  if p.mode = Mode.simulation ∨ p.mode = Mode.active then
    let r := executeTrade p.mode p.tradeAmount outcome s.trades Side.buy
      productId price
    ({ s with trades := r.1 }, r.2.1)
  else (s, [])

/-- Embeds `RSIStrategy.generateSellSignal` (rsiStrategy.js lines 151-181). -/
def generateSellSignal (p : RsiParams) (outcome : EngineOutcome)
    (s : RsiState) (productId : String) (price : ℚ) :
    RsiState × List SinkCall :=
  if p.mode = Mode.simulation ∨ p.mode = Mode.active then
    let r := executeTrade p.mode p.tradeAmount outcome s.trades Side.sell
      productId price
    ({ s with trades := r.1 }, r.2.1)
  else (s, [])

/-- Embeds `RSIStrategy.generateSignals` (rsiStrategy.js lines 81-117),
sequentially.  `if (!this.rsi) return` uses JS truthiness, so an RSI of
exactly 0 also skips; the product is hardcoded to BTC-USD; the position
flag is assigned after the signal call returns. -/
def generateSignals (p : RsiParams) (outcome : EngineOutcome)
    (s : RsiState) : RsiState × List SinkCall :=
  if jsTruthy s.rsi then
    let r := s.rsi.getD 0
    let currentPrice := s.priceHistory.getLast?.getD 0
    let productId := "BTC-USD"
    if r ≤ p.oversoldThreshold ∧ s.position ≠ Pos3.long then
      let g := generateBuySignal p outcome s productId currentPrice
      ({ g.1 with position := Pos3.long }, g.2)
    else if p.overboughtThreshold ≤ r ∧ s.position ≠ Pos3.short then
      let g := generateSellSignal p outcome s productId currentPrice
      ({ g.1 with position := Pos3.short }, g.2)
    else if p.oversoldThreshold + 10 < r ∧ r < p.overboughtThreshold - 10 then
      ({ s with position := Pos3.none }, [])
    else (s, [])
  else (s, [])

/-- Embeds `RSIStrategy.onPriceUpdate` (rsiStrategy.js lines 32-65): push
the price; from the second price on, append the gain/loss of the change,
cap the gain/loss windows at `period` (one `shift()` each), recompute the
RSI and generate signals; finally cap the price history by trimming it to
the last `period` prices whenever it exceeds `2 * period`. -/
def onPriceUpdate (p : RsiParams) (outcome : EngineOutcome) (s : RsiState)
    (price : ℚ) : RsiState × List SinkCall :=
  let hist := s.priceHistory ++ [price]
  let r :=
    if 2 ≤ hist.length then
      let change := price - hist.getD (hist.length - 2) 0
      let gains0 := if 0 < change then s.gains ++ [change] else s.gains ++ [0]
      let losses0 := if 0 < change then s.losses ++ [0]
        else s.losses ++ [|change|]
      let gains := if p.period < gains0.length then gains0.drop 1 else gains0
      let losses := if p.period < gains0.length then losses0.drop 1 else losses0
      let s2 := calculateRSI p.period
        { s with priceHistory := hist, gains := gains, losses := losses }
      generateSignals p outcome s2
    else ({ s with priceHistory := hist }, [])
  let s1 := r.1
  let hist2 := if p.period * 2 < s1.priceHistory.length then
      sliceLast s1.priceHistory p.period
    else s1.priceHistory
  ({ s1 with priceHistory := hist2 }, r.2)

end RSIStrategy

namespace MACDStrategy

/-- Parameters of `MACDStrategy` (macdStrategy.js lines 8-13). -/
structure MacdParams where
  fastPeriod : ℕ
  slowPeriod : ℕ
  signalPeriod : ℕ
  minMovementPercent : ℚ
  tradeAmount : ℚ
  mode : Mode

/-- Mutable state of `MACDStrategy` (macdStrategy.js lines 15-27);
`lastSignalPrice` is the BTC-USD entry of the per-product map. -/
structure MacdState where
  priceHistory : List ℚ
  fastEMA : Option ℚ
  slowEMA : Option ℚ
  macdLine : Option ℚ
  signalLine : Option ℚ
  histogram : Option ℚ
  prevHistogram : Option ℚ
  macdHistory : List ℚ
  signalHistory : List ℚ
  position : Pos3
  trades : List StratTrade
  lastSignalPrice : Option ℚ
deriving DecidableEq

/-- Initial state from the `MACDStrategy` constructor. -/
def initialMacdState : MacdState :=
  { priceHistory := [], fastEMA := Option.none, slowEMA := Option.none,
    macdLine := Option.none, signalLine := Option.none,
    histogram := Option.none, prevHistogram := Option.none,
    macdHistory := [], signalHistory := [], position := Pos3.none,
    trades := [], lastSignalPrice := Option.none }

/-- Embeds `MACDStrategy.calculateEMAs` (macdStrategy.js lines 60-86): each
EMA is seeded by the SMA of the last `period` prices once enough prices
exist, then updated by exponential smoothing with multiplier
`2 / (period + 1)`. -/
def calculateEMAs (p : MacdParams) (s : MacdState) : MacdState :=
  if s.priceHistory.length = 0 then s
  else
    let currentPrice := s.priceHistory.getLast?.getD 0
    let fastEMA :=
      match s.fastEMA with
      | Option.none =>
        if p.fastPeriod ≤ s.priceHistory.length then
          some ((sliceLast s.priceHistory p.fastPeriod).sum / p.fastPeriod)
        else Option.none
      | some f => some ((currentPrice - f) * (2 / (p.fastPeriod + 1)) + f)
    let slowEMA :=
      match s.slowEMA with
      | Option.none =>
        if p.slowPeriod ≤ s.priceHistory.length then
          some ((sliceLast s.priceHistory p.slowPeriod).sum / p.slowPeriod)
        else Option.none
      | some f => some ((currentPrice - f) * (2 / (p.slowPeriod + 1)) + f)
    { s with fastEMA := fastEMA, slowEMA := slowEMA }

/-- Embeds `MACDStrategy.calculateMACD` (macdStrategy.js lines 88-123):
guarded by JS truthiness of the EMAs (`!this.fastEMA || !this.slowEMA`);
pushes the MACD line (capping its history to the last `2 * signalPeriod`
entries once it exceeds `3 * signalPeriod`), seeds or smooths the signal
line, and when the signal line exists pushes it to `signalHistory` (capped
at `2 * signalPeriod` via `shift()`) and rolls the histogram. -/
def calculateMACD (p : MacdParams) (s : MacdState) : MacdState :=
  if !jsTruthy s.fastEMA || !jsTruthy s.slowEMA then s
  else
    let f := s.fastEMA.getD 0
    let sl := s.slowEMA.getD 0
    let macdLine := f - sl
    let mh0 := s.macdHistory ++ [macdLine]
    let mh := if p.signalPeriod * 3 < mh0.length then
        sliceLast mh0 (p.signalPeriod * 2)
      else mh0
    let signalLine :=
      match s.signalLine with
      | Option.none =>
        if p.signalPeriod ≤ mh.length then
          some ((sliceLast mh p.signalPeriod).sum / p.signalPeriod)
        else Option.none
      | some sg => some ((macdLine - sg) * (2 / (p.signalPeriod + 1)) + sg)
    if signalLine = Option.none then
      { s with
        macdLine := some macdLine
        macdHistory := mh
        signalLine := Option.none }
    else
      let sg := signalLine.getD 0
      let sh0 := s.signalHistory ++ [sg]
      let sh := if p.signalPeriod * 2 < sh0.length then sh0.drop 1 else sh0
      { s with
        macdLine := some macdLine
        macdHistory := mh
        signalLine := signalLine
        signalHistory := sh
        prevHistogram := s.histogram
        histogram := some (macdLine - sg) }

/-- Embeds `MACDStrategy.executeTrade` (macdStrategy.js lines 240-294),
identical in shape to the RSI strategy's version. -/
def executeTrade (mode : Mode) (tradeAmount : ℚ) (outcome : EngineOutcome)
    (trades : List StratTrade) (side : Side) (productId : String)
    (price : ℚ) : List StratTrade × List SinkCall × Bool :=
  if mode = Mode.stopped then (trades, [], false)
  else
    let call : SinkCall :=
      { side := side, productId := productId, amount := tradeAmount,
        isSimulated := false }
    match outcome with
    | EngineOutcome.success =>
      let status := if mode = Mode.active then "executed" else "simulated"
      let trade : StratTrade :=
        { side := side, productId := productId, price := price,
          amount := tradeAmount, status := status }
      (trades ++ [trade], [call], true)
    | EngineOutcome.failureResult => (trades, [call], false)
    | EngineOutcome.thrown => (trades, [call], false)

/-- Embeds `MACDStrategy.generateBuySignal` (macdStrategy.js lines 172-204). -/
def generateBuySignal (p : MacdParams) (outcome : EngineOutcome)
    (s : MacdState) (productId : String) (price : ℚ) :
    MacdState × List SinkCall :=
  if p.mode = Mode.simulation ∨ p.mode = Mode.active then
    let r := executeTrade p.mode p.tradeAmount outcome s.trades Side.buy
      productId price
    ({ s with trades := r.1 }, r.2.1)
  else (s, [])

/-- Embeds `MACDStrategy.generateSellSignal` (macdStrategy.js lines 206-238). -/
def generateSellSignal (p : MacdParams) (outcome : EngineOutcome)
    (s : MacdState) (productId : String) (price : ℚ) :
    MacdState × List SinkCall :=
  if p.mode = Mode.simulation ∨ p.mode = Mode.active then
    let r := executeTrade p.mode p.tradeAmount outcome s.trades Side.sell
      productId price
    ({ s with trades := r.1 }, r.2.1)
  else (s, [])

/-- Embeds `MACDStrategy.generateSignals` (macdStrategy.js lines 125-170),
sequentially: guarded by JS truthiness of `macdLine`/`signalLine`/
`histogram` and a strict null check on `prevHistogram`; on a bullish
(resp. bearish) histogram crossover that passes the movement filter, the
trade signal fires only in simulation/active mode, but `position` and
`lastSignalPrice` are updated regardless of mode and of the execution
result. -/
def generateSignals (p : MacdParams) (outcome : EngineOutcome)
    (s : MacdState) : MacdState × List SinkCall :=
  if !jsTruthy s.macdLine || !jsTruthy s.signalLine || !jsTruthy s.histogram ||
      decide (s.prevHistogram = Option.none) then (s, [])
  else
    let macdLine := s.macdLine.getD 0
    let signalLine := s.signalLine.getD 0
    let histogram := s.histogram.getD 0
    let prevHistogram := s.prevHistogram.getD 0
    let currentPrice := s.priceHistory.getLast?.getD 0
    let productId := "BTC-USD"
    if signalLine < macdLine ∧ prevHistogram ≤ 0 ∧ 0 < histogram then
      if shouldGenerateCrossoverSignal p.minMovementPercent p.tradeAmount
          s.lastSignalPrice currentPrice then
        let g :=
          if p.mode = Mode.simulation ∨ p.mode = Mode.active then
            generateBuySignal p outcome s productId currentPrice
          else (s, ([] : List SinkCall))
        ({ g.1 with
            position := Pos3.long
            lastSignalPrice := some currentPrice }, g.2)
      else (s, [])
    else if macdLine < signalLine ∧ 0 ≤ prevHistogram ∧ histogram < 0 then
      if shouldGenerateCrossoverSignal p.minMovementPercent p.tradeAmount
          s.lastSignalPrice currentPrice then
        let g :=
          if p.mode = Mode.simulation ∨ p.mode = Mode.active then
            generateSellSignal p outcome s productId currentPrice
          else (s, ([] : List SinkCall))
        ({ g.1 with
            position := Pos3.short
            lastSignalPrice := some currentPrice }, g.2)
      else (s, [])
    else (s, [])

/-- Embeds `MACDStrategy.onPriceUpdate` (macdStrategy.js lines 40-58): push
the price, cap the history at `3 * max(fastPeriod, slowPeriod)`, then
recompute EMAs, MACD, and signals. -/
def onPriceUpdate (p : MacdParams) (outcome : EngineOutcome) (s : MacdState)
    (price : ℚ) : MacdState × List SinkCall :=
  let hist0 := s.priceHistory ++ [price]
  let maxPeriod := max p.fastPeriod p.slowPeriod * 3
  let hist := if maxPeriod < hist0.length then sliceLast hist0 maxPeriod
    else hist0
  let s1 := calculateEMAs p { s with priceHistory := hist }
  let s2 := calculateMACD p s1
  generateSignals p outcome s2

end MACDStrategy

theorem sliceLast_length_le {α : Type} (l : List α) (n : ℕ) (hn : n ≠ 0) :
    (sliceLast l n).length ≤ n := by
  simp only [sliceLast, if_neg hn, List.length_drop]
  omega

theorem sliceLast_suffix {α : Type} (l : List α) (n : ℕ) :
    (sliceLast l n).IsSuffix l := by
  unfold sliceLast
  split
  · exact List.suffix_refl l
  · exact List.drop_suffix _ l

theorem sliceLast_mem {α : Type} {l : List α} {n : ℕ} {x : α} (h : x ∈ sliceLast l n) :
    x ∈ l :=
  (sliceLast_suffix l n).subset h

theorem sliceLast_length_of_le {α : Type} {l : List α} {n : ℕ} (hn : n ≠ 0)
    (h : n ≤ l.length) : (sliceLast l n).length = n := by
  simp only [sliceLast, if_neg hn, List.length_drop]
  omega

theorem trailingWindow_eq_sliceLast (l : List ℚ) (n : ℕ) (hn : n ≠ 0) :
    trailingWindow l n = sliceLast l n := by
  simp only [trailingWindow, sliceLast, if_neg hn]
  rw [← List.rtake_eq_reverse_take_reverse]
  rfl

/-- C4: `sma(prices, period)` is null whenever fewer than `period` prices are
available; otherwise it is the arithmetic mean of the trailing `period`
values; the strategy's per-product `calculateSMA` computes the same function;
and `sma([1,2,3,4,5], 3) = 4`. -/
theorem sma_null_until_window (prices : List ℚ) (period : ℕ) :
    (prices.length < period → TechnicalIndicators.sma prices period = none) ∧
    (period ≤ prices.length → 0 < period →
      TechnicalIndicators.sma prices period =
        some ((trailingWindow prices period).sum /
          (trailingWindow prices period).length)) ∧
    SMAStrategy.calculateSMA prices period =
      TechnicalIndicators.sma prices period ∧
    TechnicalIndicators.sma [1, 2, 3, 4, 5] 3 = some 4 := by
  refine ⟨fun h => ?_, fun h hp => ?_, ?_,
    by norm_num [TechnicalIndicators.sma, sliceLast]⟩
  · simp [TechnicalIndicators.sma, h]
  · have hne : period ≠ 0 := Nat.pos_iff_ne_zero.mp hp
    rw [trailingWindow_eq_sliceLast _ _ hne]
    rw [sliceLast_length_of_le hne h]
    simp [TechnicalIndicators.sma, Nat.not_lt.mpr h]
  · by_cases h : period ≤ prices.length
    · simp [SMAStrategy.calculateSMA, TechnicalIndicators.sma, h, Nat.not_lt.mpr h]
    · simp [SMAStrategy.calculateSMA, TechnicalIndicators.sma, h,
        Nat.lt_of_not_le h]

/-- Witness for `sma_null_until_window` at `prices = [1,2,3,4,5]`,
`period = 3`. -/
theorem sma_null_until_window_witness :
    TechnicalIndicators.sma [1, 2, 3, 4, 5] 3 =
      some ((trailingWindow [1, 2, 3, 4, 5] 3).sum /
        (trailingWindow [1, 2, 3, 4, 5] 3).length) :=
  (sma_null_until_window [1, 2, 3, 4, 5] 3).2.1 (by norm_num) (by norm_num)

theorem gainsOf_nonneg (prices : List ℚ) :
    ∀ x ∈ TechnicalIndicators.gainsOf prices, 0 ≤ x := by
  intro x hx
  simp only [TechnicalIndicators.gainsOf, List.mem_map] at hx
  obtain ⟨c, _, rfl⟩ := hx
  split
  · exact le_of_lt (by assumption)
  · exact le_refl 0

theorem lossesOf_nonneg (prices : List ℚ) :
    ∀ x ∈ TechnicalIndicators.lossesOf prices, 0 ≤ x := by
  intro x hx
  simp only [TechnicalIndicators.lossesOf, List.mem_map] at hx
  obtain ⟨c, _, rfl⟩ := hx
  split
  · exact abs_nonneg _
  · exact le_refl 0

/-- Core bounds of the Wilder RSI formula `100 - 100/(1 + g/l)` for
nonnegative average gain `g` and positive average loss `l`. -/
theorem rsi_formula_bounds (g l : ℚ) (hg : 0 ≤ g) (hl : 0 ≤ l) (hne : l ≠ 0) :
    0 ≤ 100 - 100 / (1 + g / l) ∧ 100 - 100 / (1 + g / l) ≤ 100 ∧
      100 - 100 / (1 + g / l) ≠ 100 := by
  have hrs : 0 ≤ g / l := div_nonneg hg hl
  have hpos : (0:ℚ) < 1 + g / l := by linarith
  have hdivpos : (0:ℚ) < 100 / (1 + g / l) := by positivity
  have hdivle : 100 / (1 + g / l) ≤ 100 := by
    rw [div_le_iff₀ hpos]
    nlinarith
  refine ⟨by linarith, by linarith, fun h => ?_⟩
  have : 100 / (1 + g / l) = 0 := by linarith
  linarith

/-- C5: whenever the one-shot `TechnicalIndicators.rsi` returns a value it
lies in `[0, 100]` and equals `100` exactly when the average loss over the
window is zero; the same holds for the value computed by the RSI strategy's
incremental `calculateRSI` on its maintained (nonnegative) gain/loss
windows. -/
theorem rsi_bounds (prices : List ℚ) (period : ℕ) :
    (∀ r, TechnicalIndicators.rsi prices period = some r →
      0 ≤ r ∧ r ≤ 100 ∧ (r = 100 ↔ TechnicalIndicators.avgLossOf prices period = 0)) ∧
    (∀ s : RSIStrategy.RsiState,
      (∀ x ∈ s.gains, 0 ≤ x) → (∀ x ∈ s.losses, 0 ≤ x) →
      period ≤ s.gains.length →
      ∀ r, (RSIStrategy.calculateRSI period s).rsi = some r →
        0 ≤ r ∧ r ≤ 100 ∧ (r = 100 ↔ s.losses.sum / period = 0)) := by
  constructor
  · intro r hr
    unfold TechnicalIndicators.rsi at hr
    split at hr
    · exact absurd hr (by simp)
    · split at hr
      · cases hr
        refine ⟨by norm_num, le_refl _, by tauto⟩
      · cases hr
        have hg : 0 ≤ TechnicalIndicators.avgGainOf prices period :=
          div_nonneg
            (List.sum_nonneg fun x hx => gainsOf_nonneg prices x (sliceLast_mem hx))
            (Nat.cast_nonneg period)
        have hl : 0 ≤ TechnicalIndicators.avgLossOf prices period :=
          div_nonneg
            (List.sum_nonneg fun x hx => lossesOf_nonneg prices x (sliceLast_mem hx))
            (Nat.cast_nonneg period)
        have hb := rsi_formula_bounds _ _ hg hl (by assumption)
        exact ⟨hb.1, hb.2.1, iff_of_false hb.2.2 (by assumption)⟩
  · intro s hg hl hlen r hr
    unfold RSIStrategy.calculateRSI at hr
    rw [if_neg (Nat.not_lt.mpr hlen)] at hr
    dsimp only at hr
    split at hr
    · simp only [RSIStrategy.RsiState.mk.injEq] at hr
      cases hr
      refine ⟨by norm_num, le_refl _, by tauto⟩
    · simp only at hr
      cases hr
      have hg0 : 0 ≤ s.gains.sum / (period : ℚ) :=
        div_nonneg (List.sum_nonneg hg) (Nat.cast_nonneg period)
      have hl0 : 0 ≤ s.losses.sum / (period : ℚ) :=
        div_nonneg (List.sum_nonneg hl) (Nat.cast_nonneg period)
      have hb := rsi_formula_bounds _ _ hg0 hl0 (by assumption)
      exact ⟨hb.1, hb.2.1, iff_of_false hb.2.2 (by assumption)⟩

/-- Witness for `rsi_bounds`: the one-shot RSI of `[1, 2, 1]` over period 2
(average gain 1/2, average loss 1/2, RSI 50), and the incremental RSI on
gains `[1, 0]`, losses `[0, 4]` over period 2 (RSI 20). -/
theorem rsi_bounds_witness :
    ((0:ℚ) ≤ 50 ∧ (50:ℚ) ≤ 100 ∧
      ((50:ℚ) = 100 ↔ TechnicalIndicators.avgLossOf [1, 2, 1] 2 = 0)) ∧
    ((0:ℚ) ≤ 20 ∧ (20:ℚ) ≤ 100 ∧
      ((20:ℚ) = 100 ↔ ([0, 4] : List ℚ).sum / ((2:ℕ) : ℚ) = 0)) := by
  constructor
  · refine (rsi_bounds [1, 2, 1] 2).1 50 ?_
    norm_num [TechnicalIndicators.rsi, TechnicalIndicators.avgLossOf,
      TechnicalIndicators.avgGainOf, TechnicalIndicators.gainsOf,
      TechnicalIndicators.lossesOf, TechnicalIndicators.priceChanges, sliceLast]
  · refine (rsi_bounds [] 2).2
      ⟨[], [1, 0], [0, 4], Option.none, Pos3.none, []⟩
      (by norm_num) (by norm_num) (by norm_num) 20 ?_
    norm_num [RSIStrategy.calculateRSI]

/-- C6: with no prior `lastSignalPrice` recorded for a product, both the SMA
and the MACD strategy's `shouldGenerateCrossoverSignal` return `true` for
every `minMovementPercent`, `tradeAmount` and price, so the first qualifying
crossover always emits. -/
theorem first_signal_always_allowed
    (minMovementPercent tradeAmount currentPrice : ℚ) :
    SMAStrategy.shouldGenerateCrossoverSignal minMovementPercent tradeAmount
      Option.none currentPrice = true ∧
    MACDStrategy.shouldGenerateCrossoverSignal minMovementPercent tradeAmount
      Option.none currentPrice = true :=
  ⟨rfl, rfl⟩

theorem shouldGenerateCrossoverSignal_some (minMovementPercent tradeAmount
    lastSignalPrice currentPrice : ℚ) (hlsp : lastSignalPrice ≠ 0)
    (hta : tradeAmount ≠ 0) :
    SMAStrategy.shouldGenerateCrossoverSignal minMovementPercent tradeAmount
        (some lastSignalPrice) currentPrice =
      decide (minMovementPercent ≤ |currentPrice - lastSignalPrice| / lastSignalPrice) := by
  have ht : jsTruthy (some lastSignalPrice) = true := by simp [jsTruthy, hlsp]
  unfold SMAStrategy.shouldGenerateCrossoverSignal
  rw [if_pos ht]
  dsimp only [Option.getD]
  rw [mul_div_mul_right _ _ hta]

/-- C7: with a prior positive `lastSignalPrice`, the movement filter accepts
exactly when the relative price movement `|price - lastSignalPrice| /
lastSignalPrice` reaches `minMovementPercent`; the decision is independent
of the (nonzero) `tradeAmount`; and for a fixed `lastSignalPrice` the
decision is monotone in `|price - lastSignalPrice|`: once true, it stays
true for any larger movement. -/
theorem movement_filter_monotone (minMovementPercent tradeAmount
    lastSignalPrice currentPrice : ℚ) (hlsp : 0 < lastSignalPrice)
    (hta : 0 < tradeAmount) :
    (SMAStrategy.shouldGenerateCrossoverSignal minMovementPercent tradeAmount
        (some lastSignalPrice) currentPrice = true ↔
      minMovementPercent ≤ |currentPrice - lastSignalPrice| / lastSignalPrice) ∧
    (∀ tradeAmountB : ℚ, tradeAmountB ≠ 0 →
      SMAStrategy.shouldGenerateCrossoverSignal minMovementPercent tradeAmountB
          (some lastSignalPrice) currentPrice =
        SMAStrategy.shouldGenerateCrossoverSignal minMovementPercent tradeAmount
          (some lastSignalPrice) currentPrice) ∧
    (∀ priceB : ℚ,
      |currentPrice - lastSignalPrice| ≤ |priceB - lastSignalPrice| →
      SMAStrategy.shouldGenerateCrossoverSignal minMovementPercent tradeAmount
        (some lastSignalPrice) currentPrice = true →
      SMAStrategy.shouldGenerateCrossoverSignal minMovementPercent tradeAmount
        (some lastSignalPrice) priceB = true) := by
  have hlne : lastSignalPrice ≠ 0 := ne_of_gt hlsp
  have htane : tradeAmount ≠ 0 := ne_of_gt hta
  refine ⟨?_, fun tb htb => ?_, fun pb hmove h => ?_⟩
  · rw [shouldGenerateCrossoverSignal_some _ _ _ _ hlne htane]
    exact decide_eq_true_iff
  · rw [shouldGenerateCrossoverSignal_some _ _ _ _ hlne htb,
      shouldGenerateCrossoverSignal_some _ _ _ _ hlne htane]
  · rw [shouldGenerateCrossoverSignal_some _ _ _ _ hlne htane] at h
    rw [shouldGenerateCrossoverSignal_some _ _ _ _ hlne htane]
    have h1 : minMovementPercent ≤ |currentPrice - lastSignalPrice| / lastSignalPrice :=
      of_decide_eq_true h
    have h2 : |currentPrice - lastSignalPrice| / lastSignalPrice ≤
        |pb - lastSignalPrice| / lastSignalPrice :=
      (div_le_div_iff_of_pos_right hlsp).mpr hmove
    exact decide_eq_true (le_trans h1 h2)

/-- Witness for `movement_filter_monotone`: `lastSignalPrice = 100`,
`price = 101`, `tradeAmount = 1/100`, `minMovementPercent = 1/200`
(a 1% move against a 0.5% threshold is accepted). -/
theorem movement_filter_monotone_witness :
    SMAStrategy.shouldGenerateCrossoverSignal (1/200) (1/100)
      (some 100) 101 = true := by
  have h := (movement_filter_monotone (1/200) (1/100) 100 101
    (by norm_num) (by norm_num)).1
  exact h.mpr (by rw [show |(101:ℚ) - 100| = 1 by norm_num]; norm_num)

namespace TradingEngine

theorem posFind_posSet (positions : List (String × Position)) (productId : String)
    (p : Position) : posFind (posSet positions productId p) productId = some p := by
  induction positions with
  | nil => simp [posSet, posFind]
  | cons kv rest ih =>
    obtain ⟨k, v⟩ := kv
    by_cases h : k = productId <;> simp [posSet, posFind, h, ih]

theorem posFind_posDelete (positions : List (String × Position))
    (productId : String) : posFind (posDelete positions productId) productId = Option.none := by
  induction positions with
  | nil => simp [posDelete, posFind]
  | cons kv rest ih =>
    obtain ⟨k, v⟩ := kv
    by_cases h : k = productId <;>
      simp [posDelete, posFind, h] at ih ⊢ <;> simpa [posFind, h] using ih

theorem updateDrawdownMetrics_preserves (priceOf : String → ℚ) (s : EngineState) :
    (updateDrawdownMetrics priceOf s).positions = s.positions ∧
    (updateDrawdownMetrics priceOf s).performanceData.trades =
      s.performanceData.trades ∧
    (updateDrawdownMetrics priceOf s).performanceData.totalTrades =
      s.performanceData.totalTrades ∧
    (updateDrawdownMetrics priceOf s).performanceData.sellTrades =
      s.performanceData.sellTrades ∧
    (updateDrawdownMetrics priceOf s).performanceData.winningTrades =
      s.performanceData.winningTrades := by
  unfold updateDrawdownMetrics
  dsimp only
  split <;> split <;> simp

theorem pushCapped_getLast (trades : List EngineTrade) (t : EngineTrade) :
    (pushCapped trades t).getLast? = some t := by
  unfold pushCapped
  dsimp only
  split
  · rename_i h
    unfold sliceLast
    rw [if_neg (by norm_num)]
    have hk : (trades ++ [t]).length - 1000 ≤ trades.length := by
      simp only [List.length_append, List.length_singleton]
      omega
    rw [List.drop_append_of_le_length hk]
    simp
  · simp

theorem recordTrade_buy_positions (priceOf : String → ℚ) (s : EngineState)
    (productId : String) (amount price fees : ℚ) (isSimulated : Bool) :
    (recordTrade priceOf s productId Side.buy amount price fees isSimulated).positions =
      recordBuyTrade s.positions productId amount price (amount * price) := by
  unfold recordTrade
  dsimp only
  exact (updateDrawdownMetrics_preserves priceOf _).1

theorem recordTrade_sell_fields (priceOf : String → ℚ) (s : EngineState)
    (productId : String) (amount price fees : ℚ) (isSimulated : Bool) :
    (recordTrade priceOf s productId Side.sell amount price fees isSimulated).positions =
      (recordSellTrade s.positions productId amount price (amount * price)).1 ∧
    (recordTrade priceOf s productId Side.sell amount price fees isSimulated).performanceData.trades =
      pushCapped s.performanceData.trades
        { productId := productId, side := Side.sell, amount := amount,
          price := price, totalValue := amount * price, fees := fees,
          isSimulated := isSimulated,
          realizedPnL := (recordSellTrade s.positions productId amount price (amount * price)).2 } ∧
    (recordTrade priceOf s productId Side.sell amount price fees isSimulated).performanceData.totalTrades =
      s.performanceData.totalTrades + 1 ∧
    (recordTrade priceOf s productId Side.sell amount price fees isSimulated).performanceData.sellTrades =
      s.performanceData.sellTrades + 1 ∧
    (recordTrade priceOf s productId Side.sell amount price fees isSimulated).performanceData.winningTrades =
      (if 0 < (recordSellTrade s.positions productId amount price (amount * price)).2 then
        s.performanceData.winningTrades + 1
      else s.performanceData.winningTrades) := by
  unfold recordTrade
  dsimp only
  have h := updateDrawdownMetrics_preserves priceOf
  split
  · rename_i hpnl
    refine ⟨(h _).1, ?_, ?_, ?_, ?_⟩ <;>
      simp [(h _).2.1, (h _).2.2.1, (h _).2.2.2.1, (h _).2.2.2.2, hpnl]
  · rename_i hpnl
    refine ⟨(h _).1, ?_, ?_, ?_, ?_⟩ <;>
      simp [(h _).2.1, (h _).2.2.1, (h _).2.2.2.1, (h _).2.2.2.2, hpnl]

theorem recordSellTrade_open_position (positions : List (String × Position))
    (productId : String) (amount price tv : ℚ) (h0 : 0 < amount)
    (hle : amount ≤ (posGet positions productId).amount) :
    (recordSellTrade positions productId amount price tv).2 =
      amount * (price - (posGet positions productId).avgPrice) := by
  unfold recordSellTrade
  dsimp only
  rw [if_neg (by push_neg; linarith)]
  rw [min_eq_left hle]
  split <;> ring

end TradingEngine

theorem recordSellTrade_oversell (positions : List (String × TradingEngine.Position))
    (productId : String) (amount price tv : ℚ)
    (hcover : ∀ pp : TradingEngine.Position,
      TradingEngine.posFind positions productId = some pp →
        0 < pp.amount ∧ pp.amount ≤ amount) :
    TradingEngine.posFind
        (TradingEngine.recordSellTrade positions productId amount price tv).1
        productId = Option.none ∧
    (TradingEngine.recordSellTrade positions productId amount price tv).2 =
      (TradingEngine.posGet positions productId).amount *
        (price - (TradingEngine.posGet positions productId).avgPrice) := by
  unfold TradingEngine.recordSellTrade
  cases hf : TradingEngine.posFind positions productId with
  | none =>
    have hget : TradingEngine.posGet positions productId = ⟨0, 0, 0⟩ := by
      simp [TradingEngine.posGet, hf]
    rw [hget]
    dsimp only
    rw [if_pos (le_refl 0)]
    exact ⟨hf, by ring⟩
  | some pp =>
    obtain ⟨hpos, hle⟩ := hcover pp hf
    have hget : TradingEngine.posGet positions productId = pp := by
      simp [TradingEngine.posGet, hf]
    rw [hget]
    dsimp only
    rw [if_neg (by push_neg; linarith), min_eq_right hle, sub_self,
      if_neg (lt_irrefl 0)]
    exact ⟨TradingEngine.posFind_posDelete _ _, by ring⟩

/-- C2: for every `recordTrade` call sequence on the ledger: a BUY updates
the product's position to the weighted-average cost basis
`(oldCost + amount*price) / (oldAmount + amount)`; a SELL within an open
position appends a trade whose realized P&L is
`amount * (sellPrice - avgPrice)` and is counted as a win exactly when that
P&L is positive; and the concrete scenario BUY 1@100, BUY 1@200,
SELL 1@250 yields avgPrice 150 before the sell, realized P&L 100, and a
remaining position of amount 1 at avgPrice 150. -/
theorem recordTrade_cost_basis (priceOf : String → ℚ)
    (s : TradingEngine.EngineState) (productId : String)
    (amount price fees : ℚ) (isSimulated : Bool) :
    (0 < (TradingEngine.posGet s.positions productId).amount + amount →
      TradingEngine.posFind
          (TradingEngine.recordTrade priceOf s productId Side.buy amount price
            fees isSimulated).positions productId =
        some { amount := (TradingEngine.posGet s.positions productId).amount + amount
               totalCost := (TradingEngine.posGet s.positions productId).totalCost + amount * price
               avgPrice := ((TradingEngine.posGet s.positions productId).totalCost + amount * price) /
                 ((TradingEngine.posGet s.positions productId).amount + amount) }) ∧
    (0 < amount → amount ≤ (TradingEngine.posGet s.positions productId).amount →
      (TradingEngine.recordTrade priceOf s productId Side.sell amount price
          fees isSimulated).performanceData.trades.getLast? =
        some { productId := productId, side := Side.sell, amount := amount,
               price := price, totalValue := amount * price, fees := fees,
               isSimulated := isSimulated,
               realizedPnL := amount * (price - (TradingEngine.posGet s.positions productId).avgPrice) } ∧
      ((TradingEngine.recordTrade priceOf s productId Side.sell amount price
          fees isSimulated).performanceData.winningTrades =
            s.performanceData.winningTrades + 1 ↔
        0 < amount * (price - (TradingEngine.posGet s.positions productId).avgPrice))) ∧
    (let pr : String → ℚ := fun _ => 0
     let s0 := TradingEngine.initialEngineState "t0"
     let s1 := TradingEngine.recordTrade pr s0 "BTC-USD" Side.buy 1 100 0 false
     let s2 := TradingEngine.recordTrade pr s1 "BTC-USD" Side.buy 1 200 0 false
     let s3 := TradingEngine.recordTrade pr s2 "BTC-USD" Side.sell 1 250 0 false
     (TradingEngine.posGet s2.positions "BTC-USD").avgPrice = 150 ∧
     s3.performanceData.trades.getLast?.map (fun t => t.realizedPnL) = some 100 ∧
     TradingEngine.posFind s3.positions "BTC-USD" =
       some { amount := 1, totalCost := 150, avgPrice := 150 }) := by
  refine ⟨fun hpos => ?_, fun hamt hle => ?_, ?_⟩
  · rw [TradingEngine.recordTrade_buy_positions]
    unfold TradingEngine.recordBuyTrade
    dsimp only
    rw [TradingEngine.posFind_posSet, if_pos hpos]
  · obtain ⟨-, htr, -, -, hwin⟩ := TradingEngine.recordTrade_sell_fields priceOf
      s productId amount price fees isSimulated
    have hpnl := TradingEngine.recordSellTrade_open_position s.positions
      productId amount price (amount * price) hamt hle
    constructor
    · rw [htr, hpnl]
      exact TradingEngine.pushCapped_getLast _ _
    · rw [hwin, hpnl]
      by_cases hp : 0 < amount * (price - (TradingEngine.posGet s.positions productId).avgPrice)
      · simp [hp]
      · simp only [if_neg hp]
        constructor
        · intro hcon
          omega
        · intro hcon
          exact absurd hcon hp
  · norm_num [TradingEngine.recordTrade, TradingEngine.recordBuyTrade,
      TradingEngine.recordSellTrade, TradingEngine.posGet, TradingEngine.posFind,
      TradingEngine.posSet, TradingEngine.posDelete, TradingEngine.pushCapped,
      TradingEngine.updateDrawdownMetrics, TradingEngine.calculateUnrealizedPnL,
      TradingEngine.initialEngineState, TradingEngine.initialPerformanceData,
      sliceLast]

/-- Witness for `recordTrade_cost_basis`: a first BUY of 1 @ 100 on a fresh
ledger yields position `(1, 100, 100)`, and a SELL of 1 @ 250 against an
open position of 2 @ avg 150 records realized P&L 100 and counts a win. -/
theorem recordTrade_cost_basis_witness :
    TradingEngine.posFind
        (TradingEngine.recordTrade (fun _ => 0)
          (TradingEngine.initialEngineState "t0") "BTC-USD" Side.buy 1 100 0
          false).positions "BTC-USD" =
      some { amount := 1, totalCost := 100, avgPrice := 100 } ∧
    (TradingEngine.recordTrade (fun _ => 0)
        ⟨TradingEngine.initialPerformanceData "t0",
          [("BTC-USD", ⟨2, 300, 150⟩)]⟩ "BTC-USD" Side.sell 1 250 0
        false).performanceData.trades.getLast? =
      some { productId := "BTC-USD", side := Side.sell, amount := 1,
             price := 250, totalValue := 250, fees := 0, isSimulated := false,
             realizedPnL := 100 } := by
  constructor
  · have h := (recordTrade_cost_basis (fun _ => 0)
      (TradingEngine.initialEngineState "t0") "BTC-USD" 1 100 0 false).1
      (by norm_num [TradingEngine.posGet, TradingEngine.posFind,
        TradingEngine.initialEngineState])
    simpa [TradingEngine.posGet, TradingEngine.posFind,
      TradingEngine.initialEngineState] using h
  · have h := ((recordTrade_cost_basis (fun _ => 0)
      ⟨TradingEngine.initialPerformanceData "t0",
        [("BTC-USD", ⟨2, 300, 150⟩)]⟩ "BTC-USD" 1 250 0 false).2.1
      (by norm_num)
      (by norm_num [TradingEngine.posGet, TradingEngine.posFind])).1
    have h250 : (250:ℚ) - 150 = 100 := by norm_num
    simpa [TradingEngine.posGet, TradingEngine.posFind, h250] using h

/-- C9: `resetPerformanceData` called twice in a row yields identical zeroed
state both times: after each call all trade counters, profit/loss
accumulators, fees, drawdown figures, the trades list and the positions map
hold the same zeroed/empty values (the wall-clock `sessionStartTime` string
aside). -/
theorem resetPerformanceData_idempotent (s : TradingEngine.EngineState)
    (t1 t2 : String) :
    (let r1 := TradingEngine.resetPerformanceData t1 s
     let r2 := TradingEngine.resetPerformanceData t2 r1
     r1.performanceData.totalTrades = 0 ∧ r2.performanceData.totalTrades = 0 ∧
     r1.performanceData.buyTrades = 0 ∧ r2.performanceData.buyTrades = 0 ∧
     r1.performanceData.sellTrades = 0 ∧ r2.performanceData.sellTrades = 0 ∧
     r1.performanceData.winningTrades = 0 ∧ r2.performanceData.winningTrades = 0 ∧
     r1.performanceData.losingTrades = 0 ∧ r2.performanceData.losingTrades = 0 ∧
     r1.performanceData.grossProfit = 0 ∧ r2.performanceData.grossProfit = 0 ∧
     r1.performanceData.grossLoss = 0 ∧ r2.performanceData.grossLoss = 0 ∧
     r1.performanceData.totalFees = 0 ∧ r2.performanceData.totalFees = 0 ∧
     r1.performanceData.realizedPnL = 0 ∧ r2.performanceData.realizedPnL = 0 ∧
     r1.performanceData.unrealizedPnL = 0 ∧ r2.performanceData.unrealizedPnL = 0 ∧
     r1.performanceData.maxDrawdown = 0 ∧ r2.performanceData.maxDrawdown = 0 ∧
     r1.performanceData.peakEquity = 0 ∧ r2.performanceData.peakEquity = 0 ∧
     r1.performanceData.trades = [] ∧ r2.performanceData.trades = [] ∧
     r1.positions = [] ∧ r2.positions = []) := by
  simp [TradingEngine.resetPerformanceData, TradingEngine.initialPerformanceData]

/-- C10: a SELL `recordTrade` for at least the held amount (including when
no position exists at all) never drives a position negative: the realized
P&L of the appended trade covers only the actually held amount (zero when
there is no position), the trade is still appended and counted, and the
product's position entry is deleted rather than left with amount ≤ 0. -/
theorem recordTrade_oversell (priceOf : String → ℚ)
    (s : TradingEngine.EngineState) (productId : String)
    (amount price fees : ℚ) (isSimulated : Bool)
    (hcover : ∀ pp : TradingEngine.Position,
      TradingEngine.posFind s.positions productId = some pp →
        0 < pp.amount ∧ pp.amount ≤ amount) :
    TradingEngine.posFind
        (TradingEngine.recordTrade priceOf s productId Side.sell amount price
          fees isSimulated).positions productId = Option.none ∧
    (TradingEngine.recordTrade priceOf s productId Side.sell amount price
        fees isSimulated).performanceData.trades.getLast? =
      some { productId := productId, side := Side.sell, amount := amount,
             price := price, totalValue := amount * price, fees := fees,
             isSimulated := isSimulated,
             realizedPnL := (TradingEngine.posGet s.positions productId).amount *
               (price - (TradingEngine.posGet s.positions productId).avgPrice) } ∧
    (TradingEngine.recordTrade priceOf s productId Side.sell amount price
        fees isSimulated).performanceData.totalTrades =
      s.performanceData.totalTrades + 1 ∧
    (TradingEngine.recordTrade priceOf s productId Side.sell amount price
        fees isSimulated).performanceData.sellTrades =
      s.performanceData.sellTrades + 1 := by
  obtain ⟨hposn, hpnl⟩ := recordSellTrade_oversell s.positions productId amount
    price (amount * price) hcover
  obtain ⟨hpos, htr, htot, hsell, -⟩ := TradingEngine.recordTrade_sell_fields
    priceOf s productId amount price fees isSimulated
  refine ⟨?_, ?_, htot, hsell⟩
  · rw [hpos]
    exact hposn
  · rw [htr, hpnl]
    exact TradingEngine.pushCapped_getLast _ _

/-- Witness for `recordTrade_oversell`: a SELL of 1 @ 50 on a fresh ledger
with no open position appends a zero-P&L sell trade, counts it, and leaves
no position entry. -/
theorem recordTrade_oversell_witness :
    TradingEngine.posFind
        (TradingEngine.recordTrade (fun _ => 0)
          (TradingEngine.initialEngineState "t0") "BTC-USD" Side.sell 1 50 0
          false).positions "BTC-USD" = Option.none ∧
    (TradingEngine.recordTrade (fun _ => 0)
        (TradingEngine.initialEngineState "t0") "BTC-USD" Side.sell 1 50 0
        false).performanceData.trades.getLast?.map (fun t => t.realizedPnL) =
      some 0 := by
  have h := recordTrade_oversell (fun _ => 0)
    (TradingEngine.initialEngineState "t0") "BTC-USD" 1 50 0 false
    (by intro pp hpp; simp [TradingEngine.posFind,
      TradingEngine.initialEngineState] at hpp)
  refine ⟨h.1, ?_⟩
  rw [h.2.1]
  simp [TradingEngine.posGet, TradingEngine.posFind,
    TradingEngine.initialEngineState]

namespace SMAStrategy

theorem generateBuySignal_priceHistory (p : SmaParams) (pf : Portfolio)
    (outcome : EngineOutcome) (productId : String) (s : SmaState)
    (price : ℚ) :
    (generateBuySignal p pf outcome productId s price).1.priceHistory =
      s.priceHistory := by
  obtain ⟨per, mmp, ta, mode⟩ := p
  unfold generateBuySignal
  cases mode <;> simp

theorem generateBuySignal_position (p : SmaParams) (pf : Portfolio)
    (outcome : EngineOutcome) (productId : String) (s : SmaState)
    (price : ℚ) :
    (generateBuySignal p pf outcome productId s price).1.position =
      Pos3.long := by
  obtain ⟨per, mmp, ta, mode⟩ := p
  unfold generateBuySignal
  cases mode <;> simp

theorem generateBuySignal_lastSignalPrice (p : SmaParams) (pf : Portfolio)
    (outcome : EngineOutcome) (productId : String) (s : SmaState)
    (price : ℚ) :
    (generateBuySignal p pf outcome productId s price).1.lastSignalPrice =
      some price := by
  obtain ⟨per, mmp, ta, mode⟩ := p
  unfold generateBuySignal
  cases mode <;> simp

theorem generateSellSignal_priceHistory (p : SmaParams) (pf : Portfolio)
    (outcome : EngineOutcome) (productId : String) (s : SmaState)
    (price : ℚ) :
    (generateSellSignal p pf outcome productId s price).1.priceHistory =
      s.priceHistory := by
  obtain ⟨per, mmp, ta, mode⟩ := p
  unfold generateSellSignal
  cases mode <;> simp

theorem generateSignals_priceHistory_sma (p : SmaParams) (pf : Portfolio)
    (outcome : EngineOutcome) (productId : String) (s : SmaState)
    (currentPrice : ℚ) :
    (generateSignals p pf outcome productId s currentPrice).1.priceHistory =
      s.priceHistory := by
  obtain ⟨ph, sma, lp, ls, pos, lsp, ep, ibg, tr⟩ := s
  cases sma <;> cases lp <;> cases ls <;> simp only [generateSignals]
  repeat' split
  all_goals try rfl
  all_goals try simp [generateBuySignal_priceHistory,
    generateSellSignal_priceHistory]

end SMAStrategy

namespace RSIStrategy

theorem calculateRSI_priceHistory (period : ℕ) (s : RsiState) :
    (calculateRSI period s).priceHistory = s.priceHistory := by
  unfold calculateRSI
  repeat' split
  all_goals try rfl
  all_goals simp [apply_ite RsiState.priceHistory]

theorem generateSignals_priceHistory_rsi (p : RsiParams)
    (outcome : EngineOutcome) (s : RsiState) :
    (generateSignals p outcome s).1.priceHistory = s.priceHistory := by
  unfold generateSignals generateBuySignal generateSellSignal
  repeat' split
  all_goals try rfl
  all_goals simp [apply_ite (Prod.fst : RsiState × List SinkCall → RsiState),
    apply_ite RsiState.priceHistory]

end RSIStrategy

namespace MACDStrategy

theorem calculateEMAs_priceHistory (p : MacdParams) (s : MacdState) :
    (calculateEMAs p s).priceHistory = s.priceHistory := by
  unfold calculateEMAs
  repeat' split
  all_goals try rfl

theorem calculateMACD_priceHistory (p : MacdParams) (s : MacdState) :
    (calculateMACD p s).priceHistory = s.priceHistory := by
  unfold calculateMACD
  repeat' split
  all_goals try rfl
  all_goals try simp
  all_goals repeat' split
  all_goals try rfl

theorem generateSignals_priceHistory_macd (p : MacdParams)
    (outcome : EngineOutcome) (s : MacdState) :
    (generateSignals p outcome s).1.priceHistory = s.priceHistory := by
  unfold generateSignals generateBuySignal generateSellSignal
  repeat' split
  all_goals try rfl
  all_goals try simp
  all_goals repeat' split
  all_goals try rfl

end MACDStrategy

theorem sma_onPriceUpdate_priceHistory (p : SMAStrategy.SmaParams)
    (pf : SMAStrategy.Portfolio) (outcome : EngineOutcome)
    (productId : String) (s : SMAStrategy.SmaState) (price : ℚ) :
    (SMAStrategy.onPriceUpdate p pf outcome productId s price).1.priceHistory =
      (if p.period * 2 < (s.priceHistory ++ [price]).length then
        sliceLast (s.priceHistory ++ [price]) (p.period * 2)
      else s.priceHistory ++ [price]) := by
  unfold SMAStrategy.onPriceUpdate
  dsimp only
  simp [SMAStrategy.generateSignals_priceHistory_sma]

theorem rsi_onPriceUpdate_priceHistory (p : RSIStrategy.RsiParams)
    (outcome : EngineOutcome) (s : RSIStrategy.RsiState) (price : ℚ) :
    (RSIStrategy.onPriceUpdate p outcome s price).1.priceHistory =
      (if p.period * 2 < (s.priceHistory ++ [price]).length then
        sliceLast (s.priceHistory ++ [price]) p.period
      else s.priceHistory ++ [price]) := by
  unfold RSIStrategy.onPriceUpdate
  dsimp only
  split <;> simp [RSIStrategy.generateSignals_priceHistory_rsi,
    RSIStrategy.calculateRSI_priceHistory]

theorem macd_onPriceUpdate_priceHistory (p : MACDStrategy.MacdParams)
    (outcome : EngineOutcome) (s : MACDStrategy.MacdState) (price : ℚ) :
    (MACDStrategy.onPriceUpdate p outcome s price).1.priceHistory =
      (if max p.fastPeriod p.slowPeriod * 3 < (s.priceHistory ++ [price]).length then
        sliceLast (s.priceHistory ++ [price]) (max p.fastPeriod p.slowPeriod * 3)
      else s.priceHistory ++ [price]) := by
  unfold MACDStrategy.onPriceUpdate
  dsimp only
  simp [MACDStrategy.generateSignals_priceHistory_macd,
    MACDStrategy.calculateMACD_priceHistory,
    MACDStrategy.calculateEMAs_priceHistory]

/-- C8: after every `onPriceUpdate` tick, from any state, each strategy's
stored per-product price history length stays within its cap — `2 * period`
for the SMA and RSI strategies, `3 * slowPeriod` for MACD (whose literal cap
is `3 * max(fastPeriod, slowPeriod)`) — and the new history is a suffix of
the old history with the new price appended, i.e. the oldest points are
evicted first.  Holding from any state, the bound is an invariant after
every tick of every tick sequence. -/
theorem price_history_bounded (pS : SMAStrategy.SmaParams)
    (pf : SMAStrategy.Portfolio) (outcome : EngineOutcome)
    (productId : String) (sS : SMAStrategy.SmaState) (price : ℚ)
    (pR : RSIStrategy.RsiParams) (sR : RSIStrategy.RsiState)
    (pM : MACDStrategy.MacdParams) (sM : MACDStrategy.MacdState)
    (hS : 1 ≤ pS.period) (hR : 1 ≤ pR.period) (hM : 1 ≤ pM.slowPeriod)
    (hFS : pM.fastPeriod ≤ pM.slowPeriod) :
    ((SMAStrategy.onPriceUpdate pS pf outcome productId sS price).1.priceHistory.length ≤
        pS.period * 2 ∧
      ((SMAStrategy.onPriceUpdate pS pf outcome productId sS price).1.priceHistory).IsSuffix
        (sS.priceHistory ++ [price])) ∧
    ((RSIStrategy.onPriceUpdate pR outcome sR price).1.priceHistory.length ≤
        pR.period * 2 ∧
      ((RSIStrategy.onPriceUpdate pR outcome sR price).1.priceHistory).IsSuffix
        (sR.priceHistory ++ [price])) ∧
    ((MACDStrategy.onPriceUpdate pM outcome sM price).1.priceHistory.length ≤
        pM.slowPeriod * 3 ∧
      ((MACDStrategy.onPriceUpdate pM outcome sM price).1.priceHistory).IsSuffix
        (sM.priceHistory ++ [price])) := by
  rw [sma_onPriceUpdate_priceHistory, rsi_onPriceUpdate_priceHistory,
    macd_onPriceUpdate_priceHistory]
  refine ⟨⟨?_, ?_⟩, ⟨?_, ?_⟩, ⟨?_, ?_⟩⟩
  · split
    · exact le_trans (sliceLast_length_le _ _ (by omega)) (le_refl _)
    · rename_i h
      omega
  · split
    · exact sliceLast_suffix _ _
    · exact List.suffix_refl _
  · split
    · exact le_trans (sliceLast_length_le _ _ (by omega)) (by omega)
    · rename_i h
      omega
  · split
    · exact sliceLast_suffix _ _
    · exact List.suffix_refl _
  · split
    · refine le_trans (sliceLast_length_le _ _ ?_) ?_
      · have := max_eq_right hFS
        omega
      · have := max_eq_right hFS
        omega
    · rename_i h
      have := max_eq_right hFS
      omega
  · split
    · exact sliceLast_suffix _ _
    · exact List.suffix_refl _

/-- Witness for `price_history_bounded` at period 1 strategies (slow period
1, fast period 1), empty starting histories, one tick at price 5. -/
theorem price_history_bounded_witness :
    (SMAStrategy.onPriceUpdate ⟨1, 5/1000, 1/100, Mode.stopped⟩ ⟨0, 0, 0⟩
        EngineOutcome.success "BTC-USD" SMAStrategy.initialSmaState
        5).1.priceHistory.length ≤ 2 ∧
    (RSIStrategy.onPriceUpdate ⟨1, 30, 70, 1/100, Mode.stopped⟩
        EngineOutcome.success RSIStrategy.initialRsiState
        5).1.priceHistory.length ≤ 2 ∧
    (MACDStrategy.onPriceUpdate ⟨1, 1, 1, 5/1000, 1/100, Mode.stopped⟩
        EngineOutcome.success MACDStrategy.initialMacdState
        5).1.priceHistory.length ≤ 3 := by
  have h := price_history_bounded ⟨1, 5/1000, 1/100, Mode.stopped⟩ ⟨0, 0, 0⟩
    EngineOutcome.success "BTC-USD" SMAStrategy.initialSmaState 5
    ⟨1, 30, 70, 1/100, Mode.stopped⟩ RSIStrategy.initialRsiState
    ⟨1, 1, 1, 5/1000, 1/100, Mode.stopped⟩ MACDStrategy.initialMacdState
    (by norm_num) (by norm_num) (by norm_num) (by norm_num)
  exact ⟨h.1.1, h.2.1.1, h.2.2.1⟩

/-- C1, failing case: the RSI strategy in simulation mode (period 2, trade
amount 0.01), holding prices [100, 101] with gain window [1] and loss
window [0], receives the tick 97: the RSI computes to 20 ≤ 30 (oversold),
and `executeTrade` makes one engine `executeBuyOrder` call with
`isSimulated` left at `false` — which the engine routes to
`coinbaseService.placeBuyOrder`, a real exchange order — while the recorded
strategy trade is labelled 'simulated'. -/
theorem rsi_simulation_places_real_order :
    (RSIStrategy.onPriceUpdate
        { period := 2, oversoldThreshold := 30, overboughtThreshold := 70,
          tradeAmount := 1/100, mode := Mode.simulation }
        EngineOutcome.success
        { priceHistory := [100, 101], gains := [1], losses := [0],
          rsi := Option.none, position := Pos3.none, trades := [] } 97).2 =
      [{ side := Side.buy, productId := "BTC-USD", amount := 1/100,
         isSimulated := false }] ∧
    (RSIStrategy.onPriceUpdate
        { period := 2, oversoldThreshold := 30, overboughtThreshold := 70,
          tradeAmount := 1/100, mode := Mode.simulation }
        EngineOutcome.success
        { priceHistory := [100, 101], gains := [1], losses := [0],
          rsi := Option.none, position := Pos3.none, trades := [] } 97).1.trades =
      [{ side := Side.buy, productId := "BTC-USD", price := 97,
         amount := 1/100, status := "simulated" }] ∧
    TradingEngine.executeOrderRoute false =
      TradingEngine.OrderRoute.exchangeOrder := by
  refine ⟨?_, ?_, rfl⟩ <;>
    norm_num [RSIStrategy.onPriceUpdate, RSIStrategy.calculateRSI,
      RSIStrategy.generateSignals, RSIStrategy.generateBuySignal,
      RSIStrategy.generateSellSignal, RSIStrategy.executeTrade, jsTruthy,
      sliceLast, List.getD] <;>
    simp

/-- C3, counterexample: the SMA strategy in active mode (period 2, movement
threshold 0.5%), position 'none', history [10, 10] with last price/SMA 10,
receives the tick 12 (a buy crossover: SMA becomes 11 < 12).  The engine
call returns a failure, so no trade is appended to the ledger — yet the
product's position flag is 'long' and `lastSignalPrice` is 12 afterwards,
not the pre-crossover values ('none', null): the internal position state is
NOT left unchanged by the failed attempt. -/
theorem sma_failed_execution_changes_position :
    (SMAStrategy.onPriceUpdate
        { period := 2, minMovementPercent := 5/1000, tradeAmount := 1/100,
          mode := Mode.active } { usd := 0, usdc := 0, crypto := 0 }
        EngineOutcome.failureResult "BTC-USD"
        { priceHistory := [10, 10], sma := some 10, lastPrice := some 10,
          lastSma := some 10, position := Pos3.none,
          lastSignalPrice := Option.none, entryPrice := Option.none,
          initialBuyGenerated := false, trades := [] } 12).2 =
      [{ side := Side.buy, productId := "BTC-USD", amount := 1/100,
         isSimulated := false }] ∧
    (SMAStrategy.onPriceUpdate
        { period := 2, minMovementPercent := 5/1000, tradeAmount := 1/100,
          mode := Mode.active } { usd := 0, usdc := 0, crypto := 0 }
        EngineOutcome.failureResult "BTC-USD"
        { priceHistory := [10, 10], sma := some 10, lastPrice := some 10,
          lastSma := some 10, position := Pos3.none,
          lastSignalPrice := Option.none, entryPrice := Option.none,
          initialBuyGenerated := false, trades := [] } 12).1.trades = [] ∧
    (SMAStrategy.onPriceUpdate
        { period := 2, minMovementPercent := 5/1000, tradeAmount := 1/100,
          mode := Mode.active } { usd := 0, usdc := 0, crypto := 0 }
        EngineOutcome.failureResult "BTC-USD"
        { priceHistory := [10, 10], sma := some 10, lastPrice := some 10,
          lastSma := some 10, position := Pos3.none,
          lastSignalPrice := Option.none, entryPrice := Option.none,
          initialBuyGenerated := false, trades := [] } 12).1.position =
      Pos3.long ∧
    (SMAStrategy.onPriceUpdate
        { period := 2, minMovementPercent := 5/1000, tradeAmount := 1/100,
          mode := Mode.active } { usd := 0, usdc := 0, crypto := 0 }
        EngineOutcome.failureResult "BTC-USD"
        { priceHistory := [10, 10], sma := some 10, lastPrice := some 10,
          lastSma := some 10, position := Pos3.none,
          lastSignalPrice := Option.none, entryPrice := Option.none,
          initialBuyGenerated := false, trades := [] } 12).1.lastSignalPrice =
      some 12 := by
  have hf : SMAStrategy.shouldGenerateCrossoverSignal (1/200) (1/100)
      (some 12) 12 = false := by
    norm_num [SMAStrategy.shouldGenerateCrossoverSignal, jsTruthy]
  have ht : SMAStrategy.shouldGenerateCrossoverSignal (1/200) (1/100)
      Option.none 12 = true := rfl
  have hp1 : (Pos3.none = Pos3.long) = False := by simp
  have hm1 : (Mode.active = Mode.stopped) = False := by simp
  have hm2 : (Mode.active = Mode.active) = True := by simp
  refine ⟨?_, ?_, ?_, ?_⟩ <;>
    norm_num [SMAStrategy.onPriceUpdate, SMAStrategy.calculateSMA,
      SMAStrategy.generateSignals, SMAStrategy.generateBuySignal,
      SMAStrategy.generateSellSignal, SMAStrategy.executeTrade,
      SMAStrategy.simulateTrade, jsTruthy, sliceLast, hf, ht, hp1, hm1, hm2]

/-- C3, amended: if the order-execution collaborator throws or returns a
failure/insufficient-balance result, none of the three strategies appends a
trade to its ledger; however each strategy updates its position flag (and,
for SMA and MACD, `lastSignalPrice`) when the signal is generated, before
the execution result is known, and does not roll them back on failure. -/
theorem failed_execution_no_ledger_entry (mode : Mode) (tradeAmount : ℚ)
    (outcome : EngineOutcome) (trades : List StratTrade) (side : Side)
    (productId : String) (price : ℚ) (p : SMAStrategy.SmaParams)
    (pf : SMAStrategy.Portfolio) (s : SMAStrategy.SmaState)
    (pR : RSIStrategy.RsiParams) (sR : RSIStrategy.RsiState)
    (pM : MACDStrategy.MacdParams) (sM : MACDStrategy.MacdState)
    (hfail : outcome ≠ EngineOutcome.success) :
    (SMAStrategy.executeTrade mode tradeAmount outcome trades side productId
      price).1 = trades ∧
    (RSIStrategy.executeTrade mode tradeAmount outcome trades side productId
      price).1 = trades ∧
    (MACDStrategy.executeTrade mode tradeAmount outcome trades side productId
      price).1 = trades ∧
    (SMAStrategy.generateBuySignal p pf outcome productId s price).1.position =
      Pos3.long ∧
    (SMAStrategy.generateBuySignal p pf outcome productId s
      price).1.lastSignalPrice = some price ∧
    (∀ r : ℚ, sR.rsi = some r → r ≠ 0 → r ≤ pR.oversoldThreshold →
      sR.position ≠ Pos3.long →
      (RSIStrategy.generateSignals pR outcome sR).1.position = Pos3.long) ∧
    (jsTruthy sM.macdLine = true → jsTruthy sM.signalLine = true →
      jsTruthy sM.histogram = true → sM.prevHistogram ≠ Option.none →
      sM.signalLine.getD 0 < sM.macdLine.getD 0 →
      sM.prevHistogram.getD 0 ≤ 0 → 0 < sM.histogram.getD 0 →
      MACDStrategy.shouldGenerateCrossoverSignal pM.minMovementPercent
        pM.tradeAmount sM.lastSignalPrice
        (sM.priceHistory.getLast?.getD 0) = true →
      (MACDStrategy.generateSignals pM outcome sM).1.position = Pos3.long ∧
      (MACDStrategy.generateSignals pM outcome sM).1.lastSignalPrice =
        some (sM.priceHistory.getLast?.getD 0)) := by
  refine ⟨?_, ?_, ?_, SMAStrategy.generateBuySignal_position p pf outcome
    productId s price, SMAStrategy.generateBuySignal_lastSignalPrice p pf
    outcome productId s price, ?_, ?_⟩
  · unfold SMAStrategy.executeTrade
    split
    · rfl
    · cases outcome
      · exact absurd rfl hfail
      · rfl
      · rfl
  · unfold RSIStrategy.executeTrade
    split
    · rfl
    · cases outcome
      · exact absurd rfl hfail
      · rfl
      · rfl
  · unfold MACDStrategy.executeTrade
    split
    · rfl
    · cases outcome
      · exact absurd rfl hfail
      · rfl
      · rfl
  · intro r hr hr0 hle hpos
    unfold RSIStrategy.generateSignals
    rw [hr]
    have htr : jsTruthy (some r) = true := by simp [jsTruthy, hr0]
    rw [if_pos htr]
    dsimp only [Option.getD]
    rw [if_pos ⟨hle, hpos⟩]
  · intro h1 h2 h3 h4 h5 h6 h7 h8
    unfold MACDStrategy.generateSignals
    have hc : (!jsTruthy sM.macdLine || !jsTruthy sM.signalLine ||
        !jsTruthy sM.histogram || decide (sM.prevHistogram = Option.none)) =
        false := by
      simp [h1, h2, h3, h4]
    rw [hc]
    rw [if_neg (by simp)]
    rw [if_pos ⟨h5, h6, h7⟩, if_pos h8]
    constructor <;> rfl

/-- Witness for `failed_execution_no_ledger_entry`: an active-mode buy
attempt failing against an empty ledger leaves the ledger empty; an
oversold RSI state (RSI 20, threshold 30) flips its position to long even
with a failing engine; a bullish MACD state does the same and sets
`lastSignalPrice`. -/
theorem failed_execution_no_ledger_entry_witness :
    (SMAStrategy.executeTrade Mode.active (1/100)
      EngineOutcome.failureResult [] Side.buy "BTC-USD" 50).1 = [] ∧
    (RSIStrategy.generateSignals
      { period := 14, oversoldThreshold := 30, overboughtThreshold := 70,
        tradeAmount := 1/100, mode := Mode.active }
      EngineOutcome.failureResult
      { priceHistory := [50], gains := [], losses := [], rsi := some 20,
        position := Pos3.none, trades := [] }).1.position = Pos3.long ∧
    (MACDStrategy.generateSignals
      { fastPeriod := 12, slowPeriod := 26, signalPeriod := 9,
        minMovementPercent := 5/1000, tradeAmount := 1/100,
        mode := Mode.active } EngineOutcome.failureResult
      { priceHistory := [50], fastEMA := some 2, slowEMA := some 1,
        macdLine := some 1, signalLine := some (1/2),
        histogram := some (1/2), prevHistogram := some 0, macdHistory := [],
        signalHistory := [], position := Pos3.none, trades := [],
        lastSignalPrice := Option.none }).1.lastSignalPrice = some 50 := by
  have h := failed_execution_no_ledger_entry Mode.active (1/100)
    EngineOutcome.failureResult [] Side.buy "BTC-USD" 50
    ⟨20, 5/1000, 1/100, Mode.active⟩ ⟨0, 0, 0⟩ SMAStrategy.initialSmaState
    { period := 14, oversoldThreshold := 30, overboughtThreshold := 70,
      tradeAmount := 1/100, mode := Mode.active }
    { priceHistory := [50], gains := [], losses := [], rsi := some 20,
      position := Pos3.none, trades := [] }
    { fastPeriod := 12, slowPeriod := 26, signalPeriod := 9,
      minMovementPercent := 5/1000, tradeAmount := 1/100,
      mode := Mode.active }
    { priceHistory := [50], fastEMA := some 2, slowEMA := some 1,
      macdLine := some 1, signalLine := some (1/2), histogram := some (1/2),
      prevHistogram := some 0, macdHistory := [], signalHistory := [],
      position := Pos3.none, trades := [], lastSignalPrice := Option.none }
    (by simp)
  refine ⟨h.1, ?_, ?_⟩
  · exact h.2.2.2.2.2.1 20 rfl (by norm_num) (by norm_num) (by simp)
  · exact (h.2.2.2.2.2.2 (by norm_num [jsTruthy]) (by norm_num [jsTruthy])
      (by norm_num [jsTruthy]) (by simp) (by norm_num) (by norm_num)
      (by norm_num) rfl).2

